import Mathlib

/-!
Shallow embedding of `src/impls/quiver-arrow-qpid-proton-cpp.cpp`, the
Qpid Proton C++ implementation of the quiver-arrow benchmark driver.

The driver is a `proton::messaging_handler` subclass.  Its configuration
fields (set once in `main`) become the immutable `Config` structure; its
mutable fields (`connection`, `listener`, `body`, `start_time`, `sent`,
`received`, `accepted`) become `DriverState`.  The external Proton engine
is modelled only through the commands the handler issues into it
(`connection.close()`, `listener.stop()`, `open_sender`, ...) and through
the events it dispatches into the handler.  `now()` (epoch milliseconds)
is modelled by an arbitrary clock oracle `clock : Nat → Int` together with
a tick counter in `DriverState`: each call of `now()` reads `clock tick`
and advances the tick.  C++ `int`/`int64_t` fields are modelled as `Int`
(no overflow is reached in the claims considered).
-/

namespace Quiver

/-- Configuration fields of `struct handler`, set once in `main` from argv
and never mutated afterwards (source lines 75-87, 237-252). -/
structure Config where
  connection_mode : String
  channel_mode : String
  operation : String
  id : String
  host : String
  port : String
  path : String
  seconds : Int
  messages : Int
  body_size : Int
  credit_window : Int
  durable : Bool
  deriving DecidableEq

/-- A message on the wire, as built by `on_sendable` (lines 158-164) and as
seen by `on_message`: an identifier (`m.id(id)` where `id` is a string), a
`SendTime` property (int64 epoch millis), the durable flag, and the filler
body. -/
structure Msg where
  mid : String
  sendTime : Int
  durable : Bool
  body : String
  deriving DecidableEq

/-- Mutable fields of `struct handler` (source lines 89-96).  `connection`
holds the proton connection handle when one was stored (`!!connection` in
`stop`); handles are identified by a `Nat`.  `listener` records whether a
listener handle is active.  `tick` is the model clock index: the number of
`now()` calls made so far. -/
structure DriverState where
  connection : Option Nat
  listener : Bool
  body : String
  start_time : Int
  sent : Int
  received : Int
  accepted : Int
  tick : Nat
  deriving DecidableEq

/-- The observable state of the external Proton engine that the driver's
shutdown path touches: whether the connection has been closed and whether
the listener has been stopped.  `connection.close()` and `listener.stop()`
are idempotent requests into the engine, so they are modelled as setting
these flags. -/
structure EngineState where
  connClosed : Bool
  listenerStopped : Bool
  deriving DecidableEq

/-- Commands the termination routine issues into the engine. -/
inductive Cmd where
  | closeConnection
  | stopListener
  deriving DecidableEq

/-- Effect of one engine command on the engine state. -/
def applyCmd (eng : EngineState) : Cmd → EngineState
  | Cmd.closeConnection => { eng with connClosed := true }
  | Cmd.stopListener => { eng with listenerStopped := true }

/-- The commands issued by `handler::stop` (source lines 201-209): close the
connection if a connection reference is held (`if (!!connection)`), and stop
the listener when running in server mode. -/
def stopCommands (cfg : Config) (st : DriverState) : List Cmd :=
  (if st.connection.isSome then [Cmd.closeConnection] else []) ++
    (if cfg.connection_mode = "server" then [Cmd.stopListener] else [])

/-- The termination routine `handler::stop` as a transformer of the engine
state.  It does not modify any field of `DriverState`. -/
def stop (cfg : Config) (st : DriverState) (eng : EngineState) : EngineState :=
  (stopCommands cfg st).foldl applyCmd eng

/-- One record per loop iteration of `on_sendable`: the message submitted by
`s.send(m)` and the report line written to stdout
(`std::cout << id << "," << stime << "\n"`, line 169). -/
structure SendRec where
  msg : Msg
  line : String
  deriving DecidableEq

/-- The send loop of `handler::on_sendable` (source lines 151-171):
`while (s.credit() > 0 && sent < messages)` builds a message with identifier
`std::to_string(sent + 1)`, a `SendTime` property holding `now()`, the
durable flag and the filler body, sends it, increments `sent` and prints
the report line.  Each `s.send` consumes one unit of credit, so the credit
counter decreases by one per iteration. -/
def sendLoop (cfg : Config) (clock : Nat → Int) :
    Nat → DriverState → DriverState × List SendRec
  | 0, st => (st, [])
  | credit + 1, st =>
    if st.sent < cfg.messages then
      let mid := toString (st.sent + 1)
      let stime := clock st.tick
      let m : Msg := { mid := mid, sendTime := stime, durable := cfg.durable, body := st.body }
      let line := mid ++ "," ++ toString stime
      let st' := { st with sent := st.sent + 1, tick := st.tick + 1 }
      let r := sendLoop cfg clock credit st'
      (r.1, { msg := m, line := line } :: r.2)
    else
      (st, [])

/-- A whole run of sendable-credit events on the send side: each event
carries the credit available when `on_sendable` fires, and the handler's
loop runs to exhaustion of credit or of the message budget. -/
def runSendEvents (cfg : Config) (clock : Nat → Int) :
    List Nat → DriverState → DriverState × List SendRec
  | [], st => (st, [])
  | c :: cs, st =>
    let r1 := sendLoop cfg clock c st
    let r2 := runSendEvents cfg clock cs r1.1
    (r2.1, r1.2 ++ r2.2)

/-- Result of `handler::on_tracker_accept`: the updated driver state, the
updated engine state, and whether the termination routine was invoked. -/
structure AcceptResult where
  st : DriverState
  eng : EngineState
  stopped : Bool
  deriving DecidableEq

/-- `handler::on_tracker_accept` (source lines 173-179): increment
`accepted`; if `accepted == messages`, call `stop()`. -/
def on_tracker_accept (cfg : Config) (st : DriverState) (eng : EngineState) :
    AcceptResult :=
  let st' := { st with accepted := st.accepted + 1 }
  if st'.accepted = cfg.messages then
    { st := st', eng := stop cfg st' eng, stopped := true }
  else
    { st := st', eng := eng, stopped := false }

/-- Result of `handler::on_message`: updated driver and engine state, the
report lines written to stdout, and whether the termination routine was
invoked. -/
structure MessageResult where
  st : DriverState
  eng : EngineState
  lines : List String
  stopped : Bool
  deriving DecidableEq

/-- `handler::on_message` (source lines 181-199): if `received == messages`
return immediately; otherwise increment `received`, read the message id and
`SendTime` property, capture `rtime = now()`, print `id,stime,rtime`, and
call `stop()` when the increment makes `received == messages`. -/
def on_message (cfg : Config) (clock : Nat → Int) (m : Msg)
    (st : DriverState) (eng : EngineState) : MessageResult :=
  if st.received = cfg.messages then
    { st := st, eng := eng, lines := [], stopped := false }
  else
    let rtime := clock st.tick
    let line := m.mid ++ "," ++ toString m.sendTime ++ "," ++ toString rtime
    let st' := { st with received := st.received + 1, tick := st.tick + 1 }
    if st'.received = cfg.messages then
      { st := st', eng := stop cfg st' eng, lines := [line], stopped := true }
    else
      { st := st', eng := eng, lines := [line], stopped := false }

/-- `handler::on_transport_error` (source lines 211-216): in server mode the
error is ignored; otherwise it is handed to `on_error`, whose default
implementation throws, so the error propagates out of the container run.
The result is the propagated error, if any. -/
def on_transport_error (cfg : Config) (err : String) : Option String :=
  if cfg.connection_mode = "server" then none else some err

/-- `eprint` (source lines 56-58): the diagnostic line written to standard
error. -/
def eprintLine (message : String) : String := "quiver-arrow: error: " ++ message

/-- What `main` does with an exception escaping `container.run()` (source
lines 254-259): print the diagnostic via `eprint` and return exit code 1.
For a transport error this yields `some (stderrLine, exitCode)` in client
mode and `none` (run continues) in server mode. -/
def transportErrorOutcome (cfg : Config) (err : String) : Option (String × Int) :=
  match on_transport_error cfg err with
  | some e => some (eprintLine e, 1)
  | none => none

/-- Commands `on_connection_open` issues into the engine. -/
inductive OpenCmd where
  | openSender (path : String)
  | openReceiver (path : String) (window : Int)
  | ackOpen
  deriving DecidableEq

/-- `handler::on_connection_open` (source lines 121-137): in active channel
mode, open a sender for operation `send`, a receiver (with the configured
credit window) for `receive`, and throw otherwise; in any other channel
mode, store the connection reference and acknowledge the open.  `c` is the
handle of the inbound connection. -/
def on_connection_open (cfg : Config) (st : DriverState) (c : Nat) :
    Except Unit (DriverState × List OpenCmd) :=
  if cfg.channel_mode = "active" then
    if cfg.operation = "send" then
      Except.ok (st, [OpenCmd.openSender cfg.path])
    else if cfg.operation = "receive" then
      Except.ok (st, [OpenCmd.openReceiver cfg.path cfg.credit_window])
    else
      Except.error ()
  else
    Except.ok ({ st with connection := some c }, [OpenCmd.ackOpen])

/-- Action of a scheduled timer: the only timer scheduled is the one whose
closure calls `stop()`. -/
inductive TimerAction where
  | stopTimer
  deriving DecidableEq

/-- Startup command issued into the engine by `on_container_start`. -/
inductive StartCmd where
  | connect (domain : String)
  | listen (domain : String)
  deriving DecidableEq

/-- Result of `on_container_start`: the initialised driver state, the
connect/listen command, and the scheduled timers (delay in milliseconds
paired with the action). -/
structure StartResult where
  st : DriverState
  cmd : StartCmd
  timers : List (Int × TimerAction)
  deriving DecidableEq

/-- The driver state before `on_container_start` runs: all counters zero,
no handles, empty body. -/
def initDriver : DriverState :=
  { connection := none, listener := false, body := "", start_time := 0,
    sent := 0, received := 0, accepted := 0, tick := 0 }

/-- The driver state after the startup assignments common to both modes:
the filler body (`body_size` copies of `x`, line 99) and
`start_time = now()` (line 114, consuming clock tick 0). -/
def startDriver (cfg : Config) (clock : Nat → Int) : DriverState :=
  { initDriver with
    body := String.mk (List.replicate cfg.body_size.toNat 'x')
    start_time := clock 0
    tick := 1 }

/-- The timers scheduled at startup (source lines 116-118): one timer at
`seconds * proton::duration::SECOND` (1000 ms) whose closure calls `stop()`,
scheduled only when `seconds > 0`. -/
def startTimers (cfg : Config) : List (Int × TimerAction) :=
  if 0 < cfg.seconds then [(cfg.seconds * 1000, TimerAction.stopTimer)] else []

/-- `handler::on_container_start` (source lines 98-119): build the filler
body, connect (client) or listen (server) on `host:port` — any other
connection mode throws — record `start_time = now()` and schedule the
duration timer when configured. -/
def on_container_start (cfg : Config) (clock : Nat → Int) :
    Except Unit StartResult :=
  let domain := cfg.host ++ ":" ++ cfg.port
  if cfg.connection_mode = "client" then
    Except.ok
      { st := { startDriver cfg clock with connection := some 0 }
        cmd := StartCmd.connect domain
        timers := startTimers cfg }
  else if cfg.connection_mode = "server" then
    Except.ok
      { st := { startDriver cfg clock with listener := true }
        cmd := StartCmd.listen domain
        timers := startTimers cfg }
  else
    Except.error ()

/-- A protocol event dispatched by the engine into the handler. -/
inductive Event where
  | sendable (credit : Nat)
  | message (m : Msg)
  | trackerAccept
  | timerFired
  | transportError (err : String)
  | connectionOpen (c : Nat)
  deriving DecidableEq

/-- Whether an event is an accept confirmation. -/
def Event.isAccept : Event → Bool
  | Event.trackerAccept => true
  | _ => false

/-- The number of accept confirmations in an event sequence. -/
def countAccepts (events : List Event) : Nat :=
  (events.filter Event.isAccept).length

/-- Combined driver-plus-engine state for whole-run reasoning. -/
structure Full where
  st : DriverState
  eng : EngineState
  deriving DecidableEq

/-- Dispatch of one engine event into the handler callbacks.  A transport
error either ends the run (client) or is ignored (server); in both cases it
touches no handler state.  A throwing `on_connection_open` likewise ends
the run with the state unchanged. -/
def step (cfg : Config) (clock : Nat → Int) (s : Full) : Event → Full
  | Event.sendable credit => { s with st := (sendLoop cfg clock credit s.st).1 }
  | Event.message m =>
    let r := on_message cfg clock m s.st s.eng
    { st := r.st, eng := r.eng }
  | Event.trackerAccept =>
    let r := on_tracker_accept cfg s.st s.eng
    { st := r.st, eng := r.eng }
  | Event.timerFired => { s with eng := stop cfg s.st s.eng }
  | Event.transportError _ => s
  | Event.connectionOpen c =>
    match on_connection_open cfg s.st c with
    | Except.ok (st', _) => { s with st := st' }
    | Except.error _ => s

/-- A run: fold the event sequence through the handler. -/
def runEvents (cfg : Config) (clock : Nat → Int) (events : List Event)
    (s : Full) : Full :=
  events.foldl (step cfg clock) s

/-- The combined state at the start of a run: zeroed driver state, open
connection state in the engine. -/
def initFull : Full :=
  { st := initDriver, eng := { connClosed := false, listenerStopped := false } }

/-! Concrete fixtures used to evaluate the definitions on sample inputs. -/

/-- A deterministic sample clock. -/
def clk0 : Nat → Int := fun t => 1000 + t

/-- Engine state before any shutdown command. -/
def engOpen : EngineState := { connClosed := false, listenerStopped := false }

/-- A sample client/active/send configuration. -/
def cfgSend : Config :=
  { connection_mode := "client", channel_mode := "active", operation := "send",
    id := "arrow", host := "localhost", port := "5672", path := "q0",
    seconds := 0, messages := 3, body_size := 4, credit_window := 10,
    durable := false }

/-- A sample client/active/receive configuration expecting two messages. -/
def cfgRecv : Config := { cfgSend with operation := "receive", messages := 2 }

/-- A server-mode variant of the receive configuration. -/
def cfgServerRecv : Config :=
  { cfgRecv with connection_mode := "server", channel_mode := "passive" }

/-- A send configuration with a five-second duration timer. -/
def cfgTimed : Config := { cfgSend with seconds := 5 }

/-- A passive-channel configuration whose operation string is invalid. -/
def cfgPassive : Config :=
  { cfgSend with channel_mode := "passive", operation := "neither" }

/-- A sample inbound message. -/
def msgW : Msg := { mid := "7", sendTime := 990, durable := false, body := "xxxx" }

/-- A receiver state with one of two messages consumed. -/
def stRecvMid : DriverState := { initDriver with received := 1, tick := 4 }

/-- A receiver state that has consumed all expected messages. -/
def stRecvDone : DriverState := { initDriver with received := 2, tick := 5 }

/-- A send configuration expecting a single message. -/
def cfgOne : Config := { cfgSend with messages := 1 }

/-- The record the send loop produces for its `j`-th message when the loop
starts with `sent = k` and clock index `t`: identifier `k + j + 1` as a
decimal string, send timestamp `clock (t + j)`, and the report line
`id,stime`. -/
def expectedRec (cfg : Config) (clock : Nat → Int) (body : String)
    (t : Nat) (k : Nat) (j : Nat) : SendRec :=
  { msg := { mid := toString (k + j + 1), sendTime := clock (t + j),
             durable := cfg.durable, body := body },
    line := toString (k + j + 1) ++ "," ++ toString (clock (t + j)) }

/-! Theorems. -/

/-- Printing a natural number cast to `Int` agrees with printing the
natural number itself. -/
theorem toString_intCast (n : Nat) : toString ((n : Int)) = toString n := rfl

/-- State evolution of one `on_sendable` invocation: `sent` and the clock
tick both advance by the number of records produced, and every other driver
field is untouched. -/
theorem sendLoop_state (cfg : Config) (clock : Nat → Int) (credit : Nat) :
    ∀ st : DriverState,
      (sendLoop cfg clock credit st).1.sent =
        st.sent + (sendLoop cfg clock credit st).2.length ∧
      (sendLoop cfg clock credit st).1.tick =
        st.tick + (sendLoop cfg clock credit st).2.length ∧
      (sendLoop cfg clock credit st).1.received = st.received ∧
      (sendLoop cfg clock credit st).1.accepted = st.accepted ∧
      (sendLoop cfg clock credit st).1.connection = st.connection ∧
      (sendLoop cfg clock credit st).1.listener = st.listener ∧
      (sendLoop cfg clock credit st).1.body = st.body ∧
      (sendLoop cfg clock credit st).1.start_time = st.start_time := by
  induction credit with
  | zero => intro st; simp [sendLoop]
  | succ n ih =>
    intro st
    by_cases h : st.sent < cfg.messages
    · have ihs := ih { st with sent := st.sent + 1, tick := st.tick + 1 }
      simp only [sendLoop, if_pos h, List.length_cons] at ihs ⊢
      obtain ⟨h1, h2, h3, h4, h5, h6, h7, h8⟩ := ihs
      refine ⟨?_, ?_, ?_, ?_, ?_, ?_, ?_, ?_⟩ <;>
        simp_all <;> omega
    · simp [sendLoop, if_neg h]

/-- The send loop never pushes `sent` beyond `messages`. -/
theorem sendLoop_le (cfg : Config) (clock : Nat → Int) (credit : Nat) :
    ∀ st : DriverState, st.sent ≤ cfg.messages →
      (sendLoop cfg clock credit st).1.sent ≤ cfg.messages := by
  induction credit with
  | zero => intro st h; simpa [sendLoop] using h
  | succ n ih =>
    intro st h
    by_cases hlt : st.sent < cfg.messages
    · have := ih { st with sent := st.sent + 1, tick := st.tick + 1 } (by simpa using hlt)
      simpa [sendLoop, if_pos hlt] using this
    · simpa [sendLoop, if_neg hlt] using h

/-- Once `sent` has reached `messages`, the send loop does nothing at
all: no state change and no records. -/
theorem sendLoop_done (cfg : Config) (clock : Nat → Int) (credit : Nat)
    (st : DriverState) (h : cfg.messages ≤ st.sent) :
    sendLoop cfg clock credit st = (st, []) := by
  cases credit with
  | zero => simp [sendLoop]
  | succ n =>
    have : ¬ st.sent < cfg.messages := by omega
    simp [sendLoop, this]

/-- The `j`-th record produced by one `on_sendable` invocation starting
from `sent = k`: identifier `k + j + 1`, timestamp `clock (tick + j)`. -/
theorem sendLoop_get (cfg : Config) (clock : Nat → Int) (credit : Nat) :
    ∀ (st : DriverState) (k : Nat), st.sent = (k : Int) →
      ∀ (j : Nat) (hj : j < (sendLoop cfg clock credit st).2.length),
        (sendLoop cfg clock credit st).2[j] =
          expectedRec cfg clock st.body st.tick k j := by
  induction credit with
  | zero => intro st k hk j hj; simp [sendLoop] at hj
  | succ n ih =>
    intro st k hk j hj
    by_cases h : st.sent < cfg.messages
    · simp only [sendLoop, if_pos h] at hj ⊢
      cases j with
      | zero =>
        simp only [List.getElem_cons_zero, expectedRec, hk]
        have hcast : (k : Int) + 1 = ((k + 1 : Nat) : Int) := by push_cast; ring
        rw [hcast, toString_intCast]
        constructor
      | succ j' =>
        simp only [List.getElem_cons_succ]
        have hk' : ({ st with sent := st.sent + 1, tick := st.tick + 1 } :
            DriverState).sent = ((k + 1 : Nat) : Int) := by
          show st.sent + 1 = ((k + 1 : Nat) : Int)
          rw [hk]; push_cast; ring
        have hj' : j' < (sendLoop cfg clock n
            { st with sent := st.sent + 1, tick := st.tick + 1 }).2.length := by
          simpa using Nat.lt_of_succ_lt_succ hj
        have := ih { st with sent := st.sent + 1, tick := st.tick + 1 } (k + 1) hk' j' hj'
        rw [this]
        simp only [expectedRec]
        have e1 : k + 1 + j' + 1 = k + (j' + 1) + 1 := by omega
        have e2 : st.tick + 1 + j' = st.tick + (j' + 1) := by omega
        rw [e1, e2]
    · simp [sendLoop, if_neg h] at hj

/-- State evolution across a whole list of sendable events. -/
theorem runSend_state (cfg : Config) (clock : Nat → Int) (credits : List Nat) :
    ∀ st : DriverState,
      (runSendEvents cfg clock credits st).1.sent =
        st.sent + (runSendEvents cfg clock credits st).2.length ∧
      (runSendEvents cfg clock credits st).1.tick =
        st.tick + (runSendEvents cfg clock credits st).2.length ∧
      (runSendEvents cfg clock credits st).1.body = st.body := by
  induction credits with
  | nil => intro st; simp [runSendEvents]
  | cons c cs ih =>
    intro st
    have h1 := sendLoop_state cfg clock c st
    have h2 := ih (sendLoop cfg clock c st).1
    simp only [runSendEvents, List.length_append] at h2 ⊢
    refine ⟨?_, ?_, ?_⟩
    · rw [h2.1, h1.1]; omega
    · rw [h2.2.1, h1.2.1]; omega
    · rw [h2.2.2, h1.2.2.2.2.2.2.1]

/-- `sent` stays bounded by `messages` across a whole list of sendable
events. -/
theorem runSend_le (cfg : Config) (clock : Nat → Int) (credits : List Nat) :
    ∀ st : DriverState, st.sent ≤ cfg.messages →
      (runSendEvents cfg clock credits st).1.sent ≤ cfg.messages := by
  induction credits with
  | nil => intro st h; simpa [runSendEvents] using h
  | cons c cs ih =>
    intro st h
    exact ih _ (sendLoop_le cfg clock c st h)

/-- Once `sent` has reached `messages`, later sendable events neither send
nor report anything. -/
theorem runSend_done (cfg : Config) (clock : Nat → Int) (credits : List Nat) :
    ∀ st : DriverState, cfg.messages ≤ st.sent →
      runSendEvents cfg clock credits st = (st, []) := by
  induction credits with
  | nil => intro st h; simp [runSendEvents]
  | cons c cs ih =>
    intro st h
    simp only [runSendEvents, sendLoop_done cfg clock c st h]
    simpa using ih st h

/-- The `j`-th record produced across a whole list of sendable events
starting from `sent = k`. -/
theorem runSend_get (cfg : Config) (clock : Nat → Int) (credits : List Nat) :
    ∀ (st : DriverState) (k : Nat), st.sent = (k : Int) →
      ∀ (j : Nat) (hj : j < (runSendEvents cfg clock credits st).2.length),
        (runSendEvents cfg clock credits st).2[j] =
          expectedRec cfg clock st.body st.tick k j := by
  induction credits with
  | nil => intro st k hk j hj; simp [runSendEvents] at hj
  | cons c cs ih =>
    intro st k hk j hj
    simp only [runSendEvents] at hj ⊢
    have hst := sendLoop_state cfg clock c st
    by_cases hcase : j < (sendLoop cfg clock c st).2.length
    · rw [List.getElem_append_left hcase]
      exact sendLoop_get cfg clock c st k hk j hcase
    · have hge : (sendLoop cfg clock c st).2.length ≤ j := Nat.le_of_not_lt hcase
      rw [List.getElem_append_right hge]
      have hk' : (sendLoop cfg clock c st).1.sent =
          ((k + (sendLoop cfg clock c st).2.length : Nat) : Int) := by
        rw [hst.1, hk]; push_cast; ring
      have hj' : j - (sendLoop cfg clock c st).2.length <
          (runSendEvents cfg clock cs (sendLoop cfg clock c st).1).2.length := by
        simp only [List.length_append] at hj
        omega
      have := ih (sendLoop cfg clock c st).1
        (k + (sendLoop cfg clock c st).2.length) hk'
        (j - (sendLoop cfg clock c st).2.length) hj'
      rw [this]
      have hbody := hst.2.2.2.2.2.2.1
      have htick := hst.2.1
      rw [hbody, htick]
      simp only [expectedRec]
      have e1 : k + (sendLoop cfg clock c st).2.length +
          (j - (sendLoop cfg clock c st).2.length) + 1 = k + j + 1 := by omega
      have e2 : st.tick + (sendLoop cfg clock c st).2.length +
          (j - (sendLoop cfg clock c st).2.length) = st.tick + j := by omega
      rw [e1, e2]

/-- Claim C1: over any sequence of sendable-credit events starting from a
fresh send-side state, the total number of report lines (one per submitted
message) never exceeds `messages`, and once `sent` has reached `messages`
any further sendable events submit and report nothing. -/
theorem send_count_bounded (cfg : Config) (clock : Nat → Int)
    (st : DriverState) (credits credits2 : List Nat)
    (h0 : st.sent = 0) (hm : 0 ≤ cfg.messages) :
    ((runSendEvents cfg clock credits st).2.length : Int) ≤ cfg.messages ∧
    ((runSendEvents cfg clock credits st).1.sent = cfg.messages →
      runSendEvents cfg clock credits2 (runSendEvents cfg clock credits st).1 =
        ((runSendEvents cfg clock credits st).1, [])) := by
  have hstate := runSend_state cfg clock credits st
  have hle := runSend_le cfg clock credits st (by rw [h0]; exact hm)
  constructor
  · rw [hstate.1, h0] at hle
    simpa using hle
  · intro hdone
    exact runSend_done cfg clock credits2 _ (le_of_eq hdone.symm)

/-- Witness for `send_count_bounded`: three messages, credit events of 2
then 5, then a further credit event of 4 after completion. -/
theorem send_count_bounded_witness :
    initDriver.sent = 0 ∧ 0 ≤ cfgSend.messages ∧
    (((runSendEvents cfgSend clk0 [2, 5] initDriver).2.length : Int) ≤
        cfgSend.messages ∧
      ((runSendEvents cfgSend clk0 [2, 5] initDriver).1.sent = cfgSend.messages →
        runSendEvents cfgSend clk0 [4]
            (runSendEvents cfgSend clk0 [2, 5] initDriver).1 =
          ((runSendEvents cfgSend clk0 [2, 5] initDriver).1, []))) :=
  ⟨by decide, by decide,
   send_count_bounded cfgSend clk0 initDriver [2, 5] [4] (by decide) (by decide)⟩

/-- Claim C2: in a send run, the `n`-th report line (0-indexed `n`) carries
the 1-based identifier `n + 1` as a decimal string — so identifiers are
strictly increasing with no gaps — and has the form `id,stime` where
`stime` is the timestamp captured for that message, which is also the
message's `SendTime` property. -/
theorem send_report_lines (cfg : Config) (clock : Nat → Int)
    (st : DriverState) (credits : List Nat) (n : Nat)
    (h0 : st.sent = 0)
    (hn : n < (runSendEvents cfg clock credits st).2.length) :
    ((runSendEvents cfg clock credits st).2[n]).msg.mid = toString (n + 1) ∧
    ((runSendEvents cfg clock credits st).2[n]).msg.sendTime =
      clock (st.tick + n) ∧
    ((runSendEvents cfg clock credits st).2[n]).line =
      toString (n + 1) ++ "," ++ toString (clock (st.tick + n)) := by
  have h := runSend_get cfg clock credits st 0 (by simpa using h0) n hn
  rw [h]
  simp [expectedRec]

/-- Witness for `send_report_lines`: the second line of a concrete
three-message run carries identifier `2`. -/
theorem send_report_lines_witness :
    initDriver.sent = 0 ∧
    1 < (runSendEvents cfgSend clk0 [2, 2] initDriver).2.length ∧
    (((runSendEvents cfgSend clk0 [2, 2] initDriver).2.get
          ⟨1, by decide⟩).msg.mid = toString (1 + 1) ∧
      ((runSendEvents cfgSend clk0 [2, 2] initDriver).2.get
          ⟨1, by decide⟩).msg.sendTime = clk0 (initDriver.tick + 1) ∧
      ((runSendEvents cfgSend clk0 [2, 2] initDriver).2.get
          ⟨1, by decide⟩).line =
        toString (1 + 1) ++ "," ++ toString (clk0 (initDriver.tick + 1))) :=
  ⟨by decide, by decide,
   send_report_lines cfgSend clk0 initDriver [2, 2] 1 (by decide) (by decide)⟩

/-- A successful `on_connection_open` never changes the counters. -/
theorem on_connection_open_counters (cfg : Config) (st : DriverState) (c : Nat)
    (st' : DriverState) (cmds : List OpenCmd)
    (h : on_connection_open cfg st c = Except.ok (st', cmds)) :
    st'.sent = st.sent ∧ st'.received = st.received ∧
      st'.accepted = st.accepted := by
  unfold on_connection_open at h
  split_ifs at h <;>
    simp only [Except.ok.injEq, Prod.mk.injEq] at h <;>
    (obtain ⟨h1, -⟩ := h; subst h1; exact ⟨rfl, rfl, rfl⟩)

/-- Effect of one dispatched event on the three counters: each is monotone,
`sent` and `received` stay below `messages`, and `accepted` grows by at
most the number of accept confirmations in the event. -/
theorem step_counters (cfg : Config) (clock : Nat → Int) (s : Full) (e : Event) :
    s.st.sent ≤ (step cfg clock s e).st.sent ∧
    s.st.received ≤ (step cfg clock s e).st.received ∧
    s.st.accepted ≤ (step cfg clock s e).st.accepted ∧
    (s.st.sent ≤ cfg.messages → (step cfg clock s e).st.sent ≤ cfg.messages) ∧
    (s.st.received ≤ cfg.messages →
      (step cfg clock s e).st.received ≤ cfg.messages) ∧
    (step cfg clock s e).st.accepted ≤
      s.st.accepted + (countAccepts [e] : Int) := by
  cases e with
  | sendable credit =>
    have h := sendLoop_state cfg clock credit s.st
    have hle := sendLoop_le cfg clock credit s.st
    obtain ⟨h1, h2, h3, h4, -⟩ := h
    simp only [step, countAccepts, List.filter, Event.isAccept]
    refine ⟨?_, ?_, ?_, ?_, ?_, ?_⟩
    · rw [h1]; omega
    · rw [h3]
    · rw [h4]
    · exact hle
    · rw [h3]; exact fun hh => hh
    · rw [h4]; simp
  | message m =>
    simp only [step]
    unfold on_message
    by_cases h1 : s.st.received = cfg.messages
    · simp [h1, countAccepts, List.filter, Event.isAccept]
    · by_cases h2 : s.st.received + 1 = cfg.messages <;>
        simp [h1, h2, countAccepts, List.filter, Event.isAccept] <;> omega
  | trackerAccept =>
    simp only [step]
    unfold on_tracker_accept
    by_cases h : s.st.accepted + 1 = cfg.messages <;>
      simp [h, countAccepts, List.filter, Event.isAccept] <;> omega
  | timerFired =>
    simp [step, countAccepts, List.filter, Event.isAccept]
  | transportError err =>
    simp [step, countAccepts, List.filter, Event.isAccept]
  | connectionOpen c =>
    simp only [step]
    cases hco : on_connection_open cfg s.st c with
    | ok p =>
      obtain ⟨st', cmds⟩ := p
      have h := on_connection_open_counters cfg s.st c st' cmds hco
      simp [hco, countAccepts, List.filter, Event.isAccept, h.1, h.2.1, h.2.2]
    | error u =>
      simp [hco, countAccepts, List.filter, Event.isAccept]

/-- Counter facts lifted to whole event sequences. -/
theorem runEvents_counters (cfg : Config) (clock : Nat → Int) :
    ∀ (events : List Event) (s : Full),
      s.st.sent ≤ (runEvents cfg clock events s).st.sent ∧
      s.st.received ≤ (runEvents cfg clock events s).st.received ∧
      s.st.accepted ≤ (runEvents cfg clock events s).st.accepted ∧
      (s.st.sent ≤ cfg.messages →
        (runEvents cfg clock events s).st.sent ≤ cfg.messages) ∧
      (s.st.received ≤ cfg.messages →
        (runEvents cfg clock events s).st.received ≤ cfg.messages) ∧
      (runEvents cfg clock events s).st.accepted ≤
        s.st.accepted + (countAccepts events : Int) := by
  intro events
  induction events with
  | nil =>
    intro s
    simp [runEvents, countAccepts, List.filter]
  | cons e es ih =>
    intro s
    have h1 := step_counters cfg clock s e
    have h2 := ih (step cfg clock s e)
    have hc : countAccepts (e :: es) = countAccepts [e] + countAccepts es := by
      simp only [countAccepts, List.filter_cons]
      cases he : Event.isAccept e <;> simp [he] <;> omega
    have hrun : runEvents cfg clock (e :: es) s =
        runEvents cfg clock es (step cfg clock s e) := rfl
    rw [hrun, hc]
    obtain ⟨a1, a2, a3, a4, a5, a6⟩ := h1
    obtain ⟨b1, b2, b3, b4, b5, b6⟩ := h2
    refine ⟨le_trans a1 b1, le_trans a2 b2, le_trans a3 b3,
      fun h => b4 (a4 h), fun h => b5 (a5 h), ?_⟩
    push_cast
    omega

/-- Claim C3 (amended): along any event sequence from the initial state,
all three counters are monotonically increasing; `sentCount` and
`receivedCount` are bounded above by `messageCount`; `acceptedCount` is
bounded above by the number of accept confirmations dispatched, hence by
`messageCount` whenever at most `messageCount` accept confirmations occur.
The unamended bound on `acceptedCount` fails, because `on_tracker_accept`
increments it without any bound check. -/
theorem counters_monotone_bounded (cfg : Config) (clock : Nat → Int)
    (events more : List Event) (hm : 0 ≤ cfg.messages) :
    ((runEvents cfg clock events initFull).st.sent ≤ cfg.messages ∧
      (runEvents cfg clock events initFull).st.received ≤ cfg.messages ∧
      (runEvents cfg clock events initFull).st.accepted ≤
        (countAccepts events : Int) ∧
      ((countAccepts events : Int) ≤ cfg.messages →
        (runEvents cfg clock events initFull).st.accepted ≤ cfg.messages)) ∧
    ((runEvents cfg clock events initFull).st.sent ≤
        (runEvents cfg clock (events ++ more) initFull).st.sent ∧
      (runEvents cfg clock events initFull).st.received ≤
        (runEvents cfg clock (events ++ more) initFull).st.received ∧
      (runEvents cfg clock events initFull).st.accepted ≤
        (runEvents cfg clock (events ++ more) initFull).st.accepted) := by
  have h1 := runEvents_counters cfg clock events initFull
  have happ : runEvents cfg clock (events ++ more) initFull =
      runEvents cfg clock more (runEvents cfg clock events initFull) := by
    simp [runEvents, List.foldl_append]
  have h2 := runEvents_counters cfg clock more
    (runEvents cfg clock events initFull)
  have hz : initFull.st.sent = 0 ∧ initFull.st.received = 0 ∧
      initFull.st.accepted = 0 := by
    exact ⟨rfl, rfl, rfl⟩
  obtain ⟨a1, a2, a3, a4, a5, a6⟩ := h1
  obtain ⟨b1, b2, b3, -⟩ := h2
  rw [happ]
  refine ⟨⟨a4 (by rw [hz.1]; exact hm), a5 (by rw [hz.2.1]; exact hm), ?_, ?_⟩,
    b1, b2, b3⟩
  · rw [hz.2.2] at a6; simpa using a6
  · intro hca
    rw [hz.2.2] at a6
    simp only [zero_add] at a6
    exact le_trans a6 hca

/-- Witness for `counters_monotone_bounded` on a concrete receive run: two
deliveries against a two-message budget, then a late third delivery. -/
theorem counters_monotone_bounded_witness :
    0 ≤ cfgRecv.messages ∧
    (((runEvents cfgRecv clk0 [Event.message msgW, Event.message msgW]
          initFull).st.sent ≤ cfgRecv.messages ∧
      (runEvents cfgRecv clk0 [Event.message msgW, Event.message msgW]
          initFull).st.received ≤ cfgRecv.messages ∧
      (runEvents cfgRecv clk0 [Event.message msgW, Event.message msgW]
          initFull).st.accepted ≤
        (countAccepts [Event.message msgW, Event.message msgW] : Int) ∧
      ((countAccepts [Event.message msgW, Event.message msgW] : Int) ≤
          cfgRecv.messages →
        (runEvents cfgRecv clk0 [Event.message msgW, Event.message msgW]
            initFull).st.accepted ≤ cfgRecv.messages)) ∧
    ((runEvents cfgRecv clk0 [Event.message msgW, Event.message msgW]
          initFull).st.sent ≤
        (runEvents cfgRecv clk0
          ([Event.message msgW, Event.message msgW] ++ [Event.message msgW])
          initFull).st.sent ∧
      (runEvents cfgRecv clk0 [Event.message msgW, Event.message msgW]
          initFull).st.received ≤
        (runEvents cfgRecv clk0
          ([Event.message msgW, Event.message msgW] ++ [Event.message msgW])
          initFull).st.received ∧
      (runEvents cfgRecv clk0 [Event.message msgW, Event.message msgW]
          initFull).st.accepted ≤
        (runEvents cfgRecv clk0
          ([Event.message msgW, Event.message msgW] ++ [Event.message msgW])
          initFull).st.accepted)) :=
  ⟨by decide,
   counters_monotone_bounded cfgRecv clk0
     [Event.message msgW, Event.message msgW] [Event.message msgW] (by decide)⟩

/-- Counterexample to claim C3 as stated: with a one-message budget, two
accept confirmations drive `acceptedCount` to 2, strictly above
`messageCount` — the code increments `accepted` without any bound check, so
the counter is not bounded by `messageCount` under arbitrary event
sequences. -/
theorem accepted_bound_counterexample :
    (runEvents cfgOne clk0 [Event.trackerAccept, Event.trackerAccept]
        initFull).st.accepted = 2 ∧
    cfgOne.messages = 1 ∧
    ¬ (runEvents cfgOne clk0 [Event.trackerAccept, Event.trackerAccept]
        initFull).st.accepted ≤ cfgOne.messages := by
  refine ⟨by decide, by decide, by decide⟩

/-- Claim C5: an inbound delivery arriving when `receivedCount` already
equals `messageCount` leaves every driver state field and the engine state
unchanged and emits no output line. -/
theorem late_delivery_ignored (cfg : Config) (clock : Nat → Int) (m : Msg)
    (st : DriverState) (eng : EngineState) (h : st.received = cfg.messages) :
    on_message cfg clock m st eng =
      { st := st, eng := eng, lines := [], stopped := false } := by
  simp [on_message, h]

/-- Witness for `late_delivery_ignored` at a concrete completed receiver
state. -/
theorem late_delivery_ignored_witness :
    stRecvDone.received = cfgRecv.messages ∧
    on_message cfgRecv clk0 msgW stRecvDone engOpen =
      { st := stRecvDone, eng := engOpen, lines := [], stopped := false } :=
  ⟨by decide, late_delivery_ignored cfgRecv clk0 msgW stRecvDone engOpen (by decide)⟩

/-- Claim C4: an inbound delivery arriving while `receivedCount` is below
`messageCount` increments `receivedCount`, emits the single report line
`id,stime,rtime` built from the message identifier, its `SendTime` property
and the captured receive timestamp, and invokes the termination routine
exactly when the increment reaches `messageCount`. -/
theorem delivery_processing (cfg : Config) (clock : Nat → Int) (m : Msg)
    (st : DriverState) (eng : EngineState) (h : st.received < cfg.messages) :
    (on_message cfg clock m st eng).st =
      { st with received := st.received + 1, tick := st.tick + 1 } ∧
    (on_message cfg clock m st eng).lines =
      [m.mid ++ "," ++ toString m.sendTime ++ "," ++ toString (clock st.tick)] ∧
    ((on_message cfg clock m st eng).stopped = true ↔
      st.received + 1 = cfg.messages) ∧
    ((on_message cfg clock m st eng).stopped = true →
      (on_message cfg clock m st eng).eng =
        stop cfg (on_message cfg clock m st eng).st eng) ∧
    ((on_message cfg clock m st eng).stopped = false →
      (on_message cfg clock m st eng).eng = eng) := by
  have hne : ¬ st.received = cfg.messages := ne_of_lt h
  by_cases h2 : st.received + 1 = cfg.messages <;>
    simp [on_message, hne, h2]

/-- Witness for `delivery_processing`: the second of two expected messages
is consumed, reported, and triggers the termination routine. -/
theorem delivery_processing_witness :
    stRecvMid.received < cfgRecv.messages ∧
    ((on_message cfgRecv clk0 msgW stRecvMid engOpen).st =
      { stRecvMid with received := stRecvMid.received + 1, tick := stRecvMid.tick + 1 } ∧
    (on_message cfgRecv clk0 msgW stRecvMid engOpen).lines =
      [msgW.mid ++ "," ++ toString msgW.sendTime ++ "," ++ toString (clk0 stRecvMid.tick)] ∧
    ((on_message cfgRecv clk0 msgW stRecvMid engOpen).stopped = true ↔
      stRecvMid.received + 1 = cfgRecv.messages) ∧
    ((on_message cfgRecv clk0 msgW stRecvMid engOpen).stopped = true →
      (on_message cfgRecv clk0 msgW stRecvMid engOpen).eng =
        stop cfgRecv (on_message cfgRecv clk0 msgW stRecvMid engOpen).st engOpen) ∧
    ((on_message cfgRecv clk0 msgW stRecvMid engOpen).stopped = false →
      (on_message cfgRecv clk0 msgW stRecvMid engOpen).eng = engOpen)) :=
  ⟨by decide, delivery_processing cfgRecv clk0 msgW stRecvMid engOpen (by decide)⟩

/-- Claim C6: every accept confirmation increments `acceptedCount` and
invokes the termination routine exactly when the incremented counter equals
`messageCount`. -/
theorem accept_processing (cfg : Config) (st : DriverState) (eng : EngineState) :
    (on_tracker_accept cfg st eng).st = { st with accepted := st.accepted + 1 } ∧
    ((on_tracker_accept cfg st eng).stopped = true ↔
      st.accepted + 1 = cfg.messages) ∧
    ((on_tracker_accept cfg st eng).stopped = true →
      (on_tracker_accept cfg st eng).eng =
        stop cfg (on_tracker_accept cfg st eng).st eng) ∧
    ((on_tracker_accept cfg st eng).stopped = false →
      (on_tracker_accept cfg st eng).eng = eng) := by
  by_cases h : st.accepted + 1 = cfg.messages <;>
    simp [on_tracker_accept, h]

/-- Claim C7: the termination routine is idempotent on the engine state, it
issues a close command exactly when a connection reference is held, and it
issues a stop-listener command exactly when running in server mode.  It
never modifies the driver state, so repeating it repeats the same commands,
whose effect on the engine is unchanged. -/
theorem stop_idempotent (cfg : Config) (st : DriverState) (eng : EngineState) :
    stop cfg st (stop cfg st eng) = stop cfg st eng ∧
    (Cmd.closeConnection ∈ stopCommands cfg st ↔ st.connection.isSome = true) ∧
    (Cmd.stopListener ∈ stopCommands cfg st ↔ cfg.connection_mode = "server") := by
  refine ⟨?_, ?_, ?_⟩
  · unfold stop stopCommands
    split_ifs <;> simp [applyCmd]
  · unfold stopCommands
    split_ifs with h1 h2 <;> simp_all
  · unfold stopCommands
    split_ifs with h1 h2 <;> simp_all

/-- Claim C8: a transport error is suppressed in server mode (no propagated
error, no diagnostic, no exit), while in client mode it is surfaced as one
diagnostic line prefixed with the error banner and exit code 1. -/
theorem transport_error_modes (cfg : Config) (err : String) :
    (cfg.connection_mode = "server" →
      on_transport_error cfg err = none ∧ transportErrorOutcome cfg err = none) ∧
    (cfg.connection_mode = "client" →
      transportErrorOutcome cfg err =
        some ("quiver-arrow: error: " ++ err, 1)) := by
  constructor
  · intro h
    simp [on_transport_error, transportErrorOutcome, h]
  · intro h
    simp [on_transport_error, transportErrorOutcome, eprintLine, h]

/-- Witness for `transport_error_modes`: a concrete client configuration
surfaces the error and a concrete server configuration suppresses it. -/
theorem transport_error_modes_witness :
    transportErrorOutcome cfgRecv "boom" =
      some ("quiver-arrow: error: " ++ "boom", 1) ∧
    transportErrorOutcome cfgServerRecv "boom" = none :=
  ⟨(transport_error_modes cfgRecv "boom").2 (by decide),
   ((transport_error_modes cfgServerRecv "boom").1 (by decide)).2⟩

/-- Claim C9: startup schedules exactly one one-shot timer, at offset
`seconds * 1000` milliseconds with the termination routine as its action,
precisely when `seconds > 0`; otherwise it schedules none. -/
theorem duration_timer (cfg : Config) (clock : Nat → Int)
    (h : cfg.connection_mode = "client" ∨ cfg.connection_mode = "server") :
    ∃ r : StartResult, on_container_start cfg clock = Except.ok r ∧
      (0 < cfg.seconds → r.timers = [(cfg.seconds * 1000, TimerAction.stopTimer)]) ∧
      (¬ 0 < cfg.seconds → r.timers = []) := by
  rcases h with h | h
  · have hok : on_container_start cfg clock = Except.ok
        { st := { startDriver cfg clock with connection := some 0 }
          cmd := StartCmd.connect (cfg.host ++ ":" ++ cfg.port)
          timers := startTimers cfg } := by
      simp [on_container_start, h]
    refine ⟨_, hok, ?_, ?_⟩ <;> intro h2 <;> simp [startTimers, h2]
  · have hne : ¬ cfg.connection_mode = "client" := by
      rw [h]; decide
    have hok : on_container_start cfg clock = Except.ok
        { st := { startDriver cfg clock with listener := true }
          cmd := StartCmd.listen (cfg.host ++ ":" ++ cfg.port)
          timers := startTimers cfg } := by
      simp [on_container_start, h, hne]
    refine ⟨_, hok, ?_, ?_⟩ <;> intro h2 <;> simp [startTimers, h2]

/-- Witness for `duration_timer`: a client configuration with a 5-second
duration schedules the single stop timer at 5000 ms. -/
theorem duration_timer_witness :
    (cfgTimed.connection_mode = "client" ∨ cfgTimed.connection_mode = "server") ∧
    (∃ r : StartResult, on_container_start cfgTimed clk0 = Except.ok r ∧
      (0 < cfgTimed.seconds →
        r.timers = [(cfgTimed.seconds * 1000, TimerAction.stopTimer)]) ∧
      (¬ 0 < cfgTimed.seconds → r.timers = [])) :=
  ⟨Or.inl (by decide), duration_timer cfgTimed clk0 (Or.inl (by decide))⟩

/-- Claim C10: for every channel mode other than `active`, a connection-open
event stores the connection reference and acknowledges the open without
validating the operation string, so an invalid operation is not fatal on
that path. -/
theorem passive_open_skips_validation (cfg : Config) (st : DriverState)
    (c : Nat) (h : cfg.channel_mode ≠ "active") :
    on_connection_open cfg st c =
      Except.ok ({ st with connection := some c }, [OpenCmd.ackOpen]) := by
  simp [on_connection_open, h]

/-- Witness for `passive_open_skips_validation`: a passive configuration
whose operation string is the invalid `neither` still opens cleanly. -/
theorem passive_open_skips_validation_witness :
    cfgPassive.channel_mode ≠ "active" ∧
    on_connection_open cfgPassive initDriver 7 =
      Except.ok ({ initDriver with connection := some 7 }, [OpenCmd.ackOpen]) :=
  ⟨by decide, passive_open_skips_validation cfgPassive initDriver 7 (by decide)⟩

end Quiver
